import Mathlib

/-!
Verification of the simple-capture configuration-to-flags translation layer.

The repository converts keyword-style configuration into ordered ffmpeg
command-line arguments.  The shallow embedding below mirrors
src/simple_capture/source/global_options.py and
src/simple_capture/source/output_streams.py: Python dictionaries with
string keys become association lists (Python dicts preserve insertion
order and the literals here have distinct keys), dynamic Python values
become the inductive type Value, and functools.cached_property becomes an
explicit object state carrying an optional cache field.
-/

namespace SimpleCapture

/-- A dynamically typed Python value as used by the option tables:
absent (None), a boolean, an integer, or a string.  The renderer in
global_options.py only ever stringifies non-boolean, non-None values. -/
inductive Value where
  | none : Value
  | bool : Bool → Value
  | int : Int → Value
  | str : String → Value
deriving DecidableEq

/-- The Python builtin str applied to a Value. -/
def Value.pyStr : Value → String
  | Value.none => "None"
  | Value.bool true => "True"
  | Value.bool false => "False"
  | Value.int n => toString n
  | Value.str s => s

/-- The constructor arguments of GlobalOptions
(global_options.py lines 54-58).  Each field holds the dynamic value
passed for the keyword parameter of the same name; the Python parameter
named sudo appears here as sudo_arg because sudo is a reserved token in
this Lean environment.  It is accepted by the constructor but never
placed in the option table. -/
structure GlobalOptions where
  filter_thread_count : Value
  show_stats : Value
  send_progress : Value
  show_timestamps : Value
  show_qp_histogram : Value
  show_benchmark : Value
  show_benchmark_verbose : Value
  exit_time_limit : Value
  dump_input_stderr : Value
  dump_payload_stderr : Value
  filter_complex_thread_count : Value
  dump_sdp_file : Value
  abort_on_flags : Value
  exit_on_error : Value
  overwrite_output : Value
  sudo_arg : Value
deriving DecidableEq

/-- The _options dictionary built by GlobalOptions.__init__
(global_options.py lines 59-66), in its insertion order. -/
def GlobalOptions.options (g : GlobalOptions) : List (String × Value) :=
  [("filter_threads", g.filter_thread_count), ("stats", g.show_stats),
   ("progress", g.send_progress), ("debug_ts", g.show_timestamps),
   ("qphist", g.show_qp_histogram), ("benchmark", g.show_benchmark),
   ("benchmark_all", g.show_benchmark_verbose), ("timelimit", g.exit_time_limit),
   ("dump", g.dump_input_stderr), ("hex", g.dump_payload_stderr),
   ("filter_complex_threads", g.filter_complex_thread_count),
   ("sdp_file", g.dump_sdp_file), ("abort_on", g.abort_on_flags),
   ("xerror", g.exit_on_error), ("y", g.overwrite_output)]

/-- The _doubly_named_flags dictionary (global_options.py line 67). -/
def doublyNamedFlags : List (String × String) :=
  [("stats", "nostats"), ("y", "n")]

/-- One iteration of the loop in GlobalOptions.ffmpeg_arguments
(global_options.py lines 72-83): acc is the list built so far and p is
the current (arg, val) pair of the options dictionary. -/
def renderStep (dnf : List (String × String)) (acc : List String)
    (p : String × Value) : List String :=
  match p.2 with
  | Value.none => acc
  | Value.bool b =>
      if b then acc ++ ["-" ++ p.1]
      else
        match dnf.lookup p.1 with
        | Option.some neg => acc ++ ["-" ++ neg]
        | Option.none => acc
  | v => acc ++ ["-" ++ p.1, v.pyStr]

/-- GlobalOptions.ffmpeg_arguments (global_options.py lines 69-85):
start from the empty list and run the loop body over the option table in
its declaration order. -/
def GlobalOptions.ffmpeg_arguments (g : GlobalOptions) : List String :=
  g.options.foldl (renderStep doublyNamedFlags) []

/-- The per-option emission rule of the spec (section 4.1): nothing for an
absent value, a single positive or negative flag token for a boolean, and
flag plus stringified value for everything else. -/
def optionTokens (dnf : List (String × String)) (p : String × Value) : List String :=
  match p.2 with
  | Value.none => []
  | Value.bool b =>
      if b then ["-" ++ p.1]
      else
        match dnf.lookup p.1 with
        | Option.some neg => ["-" ++ neg]
        | Option.none => []
  | v => ["-" ++ p.1, v.pyStr]

/-- The constructor arguments of OutputStream
(output_streams.py lines 59-63), in parameter order; filename is the one
required parameter, all others default to None in Python. -/
structure OutputStream where
  filename : Value
  fmt : Value
  video_codec : Value
  audio_codec : Value
  file_size : Value
  duration : Value
  end_position : Value
  seek_position : Value
  timestamp : Value
  target : Value
  preset : Value
  framerate : Value
  video_size : Value
  aspect_ratio : Value
  pixel_format : Value
  sample_rate : Value
  channels : Value
  sample_format : Value
  fourcc : Value
  minimum_rate : Value
  maximum_rate : Value
  buffer_size : Value
deriving DecidableEq

/-- The _options dictionary built by OutputStream.__init__
(output_streams.py lines 65-72), in its insertion order. -/
def OutputStream.options (o : OutputStream) : List (String × Value) :=
  [("filename", o.filename), ("format", o.fmt), ("fs", o.file_size),
   ("vcodec", o.video_codec), ("acodec", o.audio_codec), ("t", o.duration),
   ("to", o.end_position), ("ss", o.seek_position), ("timestamp", o.timestamp),
   ("target", o.target), ("pre", o.preset), ("framerate", o.framerate),
   ("s", o.video_size), ("aspect", o.aspect_ratio), ("pix_fmt", o.pixel_format),
   ("ar", o.sample_rate), ("ac", o.channels), ("sample_fmt", o.sample_format),
   ("atag", o.fourcc), ("minrate", o.minimum_rate), ("maxrate", o.maximum_rate),
   ("bufsize", o.buffer_size)]

/-- OutputStream._define_mutually_exclusive (output_streams.py lines
92-104): appending a group to the list of groups, ignoring groups of at
most one member. -/
def defineMutuallyExclusive (groups : List (List String))
    (args : List String) : List (List String) :=
  if args.length ≤ 1 then groups else groups ++ [args]

/-- The _mutually_exclusive list after OutputStream.__init__
(output_streams.py lines 73-74): starts empty, then the group
consisting of the t and to flags is declared. -/
def outputStreamMutuallyExclusive : List (List String) :=
  defineMutuallyExclusive [] ["t", "to"]

/-- One iteration of the loop in OutputStream._process_mutually_exclusive
(output_streams.py lines 107-114): collect the group members present in
the map, and when more than one is present delete every found member
after the first from the map. -/
def processGroup (m : List (String × Value)) (group : List String) :
    List (String × Value) :=
  let found := group.filter (fun a => (m.lookup a).isSome)
  if found.length ≤ 1 then m
  else m.filter (fun p => !((found.drop 1).contains p.1))

/-- OutputStream._process_mutually_exclusive (output_streams.py lines
106-114), run over every declared group in order. -/
def processMutuallyExclusive (groups : List (List String))
    (m : List (String × Value)) : List (String × Value) :=
  groups.foldl processGroup m

/-- OutputStream.ffmpeg_arguments (output_streams.py lines 80-84): keep
the options whose value is not None, resolve the mutually exclusive
groups on that filtered copy, and return the resulting option map. -/
def OutputStream.ffmpeg_arguments (o : OutputStream) : List (String × Value) :=
  processMutuallyExclusive outputStreamMutuallyExclusive
    (o.options.filter (fun p => !(p.2 == Value.none)))

/-- A GlobalOptions instance together with the functools.cached_property
slot for ffmpeg_arguments: Option.none models a not yet computed cache. -/
structure GlobalOptionsObj where
  table : GlobalOptions
  cache : Option (List String)
deriving DecidableEq

/-- An attribute access of GlobalOptions.ffmpeg_arguments under
functools.cached_property (global_options.py line 69): on a cache miss
the property body runs once and its result is stored, on a hit the
stored value is returned unchanged. -/
def GlobalOptionsObj.getArguments (s : GlobalOptionsObj) :
    List String × GlobalOptionsObj :=
  match s.cache with
  | Option.some v => (v, s)
  | Option.none =>
      (s.table.ffmpeg_arguments,
       GlobalOptionsObj.mk s.table (Option.some s.table.ffmpeg_arguments))

/-- An OutputStream instance together with the functools.cached_property
slot for ffmpeg_arguments: Option.none models a not yet computed cache. -/
structure OutputStreamObj where
  table : OutputStream
  cache : Option (List (String × Value))
deriving DecidableEq

/-- An attribute access of OutputStream.ffmpeg_arguments under
functools.cached_property (output_streams.py line 80). -/
def OutputStreamObj.getArguments (s : OutputStreamObj) :
    List (String × Value) × OutputStreamObj :=
  match s.cache with
  | Option.some v => (v, s)
  | Option.none =>
      (s.table.ffmpeg_arguments,
       OutputStreamObj.mk s.table (Option.some s.table.ffmpeg_arguments))

/-- generate_output_stream (output_streams.py lines 132-139): look the
name up in the stream registry; on a miss log an error and return None,
otherwise instantiate the registered class with the keyword arguments
and hand its rendered option map to the external ffmpeg.output builder.
The registry contents are a parameter here because they are populated by
the registration plumbing in simple_capture.source.streams; K is the
type of the keyword-argument bundles a registered class accepts. -/
def generate_output_stream {K : Type} (registry : List (String × (K → OutputStream)))
    (name : String) (kwargs : K) : Option (List (String × Value)) :=
  match registry.lookup name with
  | Option.none => Option.none
  | Option.some stream => Option.some (stream kwargs).ffmpeg_arguments

/-- The Python types appearing in the *_parameters schemas. -/
inductive PyType where
  | int : PyType
  | bool : PyType
  | str : PyType
  | float : PyType
deriving DecidableEq

/-- global_options_parameters (global_options.py lines 16-30): the
name-to-type schema handed to the config file reader. -/
def global_options_parameters : List (String × PyType) :=
  [("filter_thread_count", PyType.int), ("display_stats", PyType.bool),
   ("send_progress", PyType.bool), ("show_timestamps", PyType.bool),
   ("show_qp_histogram", PyType.bool), ("show_benchmark", PyType.bool),
   ("show_benchmark_verbose", PyType.bool), ("exit_time_limit", PyType.int),
   ("dump_input_stderr", PyType.bool), ("dump_payload_stderr", PyType.bool),
   ("filter_complex_thread", PyType.int), ("dump_sdp_file", PyType.str),
   ("abort_on_flags", PyType.str), ("exit_on_error", PyType.bool),
   ("overwrite_output", PyType.bool), ("sudo", PyType.bool)]

/-- The keyword parameters accepted by GlobalOptions.__init__
(global_options.py lines 54-58), in signature order. -/
def globalOptionsConstructorParameters : List String :=
  ["filter_thread_count", "show_stats", "send_progress", "show_timestamps",
   "show_qp_histogram", "show_benchmark", "show_benchmark_verbose",
   "exit_time_limit", "dump_input_stderr", "dump_payload_stderr",
   "filter_complex_thread_count", "dump_sdp_file", "abort_on_flags",
   "exit_on_error", "overwrite_output", "sudo"]

/-- The flag token an option contributes, when it contributes one: the
positive flag for true booleans and plain values, the negative flag for
false booleans with a dual mapping, nothing otherwise. -/
def emittedFlag (dnf : List (String × String)) (p : String × Value) :
    Option String :=
  match p.2 with
  | Value.none => Option.none
  | Value.bool b =>
      if b then Option.some ("-" ++ p.1)
      else (dnf.lookup p.1).map (fun neg => "-" ++ neg)
  | _ => Option.some ("-" ++ p.1)

/-- A GlobalOptions table with every value set to None. -/
def allNoneGlobal : GlobalOptions :=
  GlobalOptions.mk Value.none Value.none Value.none Value.none Value.none
    Value.none Value.none Value.none Value.none Value.none Value.none
    Value.none Value.none Value.none Value.none Value.none

/-- An OutputStream table with every value set to None. -/
def allNoneOutput : OutputStream :=
  OutputStream.mk Value.none Value.none Value.none Value.none Value.none
    Value.none Value.none Value.none Value.none Value.none Value.none
    Value.none Value.none Value.none Value.none Value.none Value.none
    Value.none Value.none Value.none Value.none Value.none

/-- The option table of the spec example: duration set to the string 10,
end_position set to the string 20, every other value absent. -/
def durationStream : OutputStream :=
  OutputStream.mk Value.none Value.none Value.none Value.none Value.none
    (Value.str "10") (Value.str "20") Value.none Value.none Value.none
    Value.none Value.none Value.none Value.none Value.none Value.none
    Value.none Value.none Value.none Value.none Value.none Value.none

/-- A fully populated GlobalOptions table used as a concrete witness
input: an int, two strings, a true boolean, a false boolean with a dual
mapping and several false booleans without one. -/
def sampleGlobal : GlobalOptions :=
  GlobalOptions.mk (Value.int 4) (Value.bool false) (Value.bool true)
    (Value.bool false) (Value.bool false) (Value.bool true)
    (Value.bool false) (Value.int 30) (Value.bool false)
    (Value.bool false) Value.none (Value.str "out.sdp")
    (Value.str "empty_output") (Value.bool false) (Value.bool true)
    (Value.bool false)

/-- sampleGlobal with only the sudo argument changed. -/
def sampleGlobalSudo : GlobalOptions :=
  GlobalOptions.mk (Value.int 4) (Value.bool false) (Value.bool true)
    (Value.bool false) (Value.bool false) (Value.bool true)
    (Value.bool false) (Value.int 30) (Value.bool false)
    (Value.bool false) Value.none (Value.str "out.sdp")
    (Value.str "empty_output") (Value.bool false) (Value.bool true)
    (Value.bool true)

theorem renderStep_eq_append (dnf : List (String × String)) (acc : List String)
    (p : String × Value) : renderStep dnf acc p = acc ++ optionTokens dnf p := by
  rcases p with ⟨a, v⟩
  cases v with
  | none => simp [renderStep, optionTokens]
  | bool b =>
    cases b with
    | true => simp [renderStep, optionTokens]
    | false =>
      simp only [renderStep, optionTokens]
      cases dnf.lookup a with
      | none => simp
      | some neg => simp
  | int n => simp [renderStep, optionTokens]
  | str s => simp [renderStep, optionTokens]

theorem foldl_renderStep (dnf : List (String × String)) :
    ∀ (l : List (String × Value)) (acc : List String),
      l.foldl (renderStep dnf) acc = acc ++ l.flatMap (optionTokens dnf) := by
  intro l
  induction l with
  | nil => intro acc; simp
  | cons p t ih =>
    intro acc
    simp only [List.foldl_cons, List.flatMap_cons, renderStep_eq_append, ih,
      List.append_assoc]

/-- Claim C1: in a rendered GlobalOptions table every option contributes
exactly the tokens the spec describes, in table order: nothing when its
value is None; the single positive flag token when the value is the
boolean true; the single negative flag token when the value is the
boolean false and a dual-name mapping exists, and nothing when it is
false without one; and the flag token followed by the stringified value
for every other non-absent value. -/
theorem renderer_per_option_tokens (g : GlobalOptions) :
    g.ffmpeg_arguments = g.options.flatMap (fun p =>
      match p.2 with
      | Value.none => []
      | Value.bool b =>
          if b then ["-" ++ p.1]
          else
            match doublyNamedFlags.lookup p.1 with
            | Option.some neg => ["-" ++ neg]
            | Option.none => []
      | v => ["-" ++ p.1, v.pyStr]) := by
  have h := foldl_renderStep doublyNamedFlags g.options []
  simpa [GlobalOptions.ffmpeg_arguments, optionTokens] using h

theorem ffmpeg_arguments_eq_flatMap (g : GlobalOptions) :
    g.ffmpeg_arguments = g.options.flatMap (optionTokens doublyNamedFlags) := by
  simpa using foldl_renderStep doublyNamedFlags g.options []

theorem optionTokens_emittedFlag (dnf : List (String × String))
    (p : String × Value) :
    (emittedFlag dnf p = Option.none ∧ optionTokens dnf p = []) ∨
    (∃ f t, emittedFlag dnf p = Option.some f ∧ optionTokens dnf p = f :: t) := by
  rcases p with ⟨a, v⟩
  cases v with
  | none => left; simp [emittedFlag, optionTokens]
  | bool b =>
    cases b with
    | true => right; exact ⟨"-" ++ a, [], by simp [emittedFlag, optionTokens]⟩
    | false =>
      cases hl : dnf.lookup a with
      | none => left; simp [emittedFlag, optionTokens, hl]
      | some neg =>
        right; exact ⟨"-" ++ neg, [], by simp [emittedFlag, optionTokens, hl]⟩
  | int n =>
    right
    exact ⟨"-" ++ a, [(Value.int n).pyStr], by simp [emittedFlag, optionTokens]⟩
  | str s =>
    right
    exact ⟨"-" ++ a, [(Value.str s).pyStr], by simp [emittedFlag, optionTokens]⟩

theorem filterMap_emittedFlag_sublist (dnf : List (String × String)) :
    ∀ l : List (String × Value),
      List.Sublist (l.filterMap (emittedFlag dnf)) (l.flatMap (optionTokens dnf)) := by
  intro l
  induction l with
  | nil => simp
  | cons p t ih =>
    simp only [List.filterMap_cons, List.flatMap_cons]
    rcases optionTokens_emittedFlag dnf p with ⟨he, ht⟩ | ⟨f, rest, he, ht⟩
    · rw [he, ht]
      simpa using ih
    · rw [he, ht]
      exact List.Sublist.cons₂ f (ih.trans (List.sublist_append_right rest _))

/-- Claim C6: the rendered GlobalOptions argument list preserves the
option table declaration order: the flag tokens the options emit occur
in ffmpeg_arguments as a sublist in exactly the declared order, with
no reordering and no deduplication. -/
theorem renderer_preserves_declaration_order (g : GlobalOptions) :
    List.Sublist (g.options.filterMap (emittedFlag doublyNamedFlags))
      g.ffmpeg_arguments := by
  rw [ffmpeg_arguments_eq_flatMap]
  exact filterMap_emittedFlag_sublist doublyNamedFlags g.options

theorem lookup_filter_key (f : String → Bool) (m : List (String × Value))
    (k : String) :
    (m.filter (fun p => f p.1)).lookup k =
      if f k then m.lookup k else Option.none := by
  induction m with
  | nil => simp
  | cons p t ih =>
    rcases p with ⟨a, v⟩
    by_cases hk : k = a
    · subst hk
      by_cases hf : f k
      · simp [List.filter_cons, hf, List.lookup]
      · simp [List.filter_cons, hf, List.lookup, ih]
    · have hba : (k == a) = false := beq_eq_false_iff_ne.mpr hk
      by_cases hf : f a
      · simp [List.filter_cons, hf, List.lookup, hba, ih]
      · simp [List.filter_cons, hf, List.lookup, hba, ih]

/-- Claim C2: for a mutual-exclusion group with distinct members and a
filtered option map, the resolver leaves the map unchanged when at most
one member is present, and otherwise every key looks up to exactly what
it did before, except the present group members other than the first
present one in priority order, which are deleted; in particular the kept
first present member keeps its value. -/
theorem mutual_exclusion_group_resolution (group : List String)
    (m : List (String × Value)) (hnd : group.Nodup) :
    ((group.filter (fun a => (m.lookup a).isSome)).length ≤ 1 →
      processGroup m group = m) ∧
    (∀ k : String,
      (processGroup m group).lookup k =
        if k ∈ group ∧ (m.lookup k).isSome = true ∧
            Option.some k ≠ (group.filter (fun a => (m.lookup a).isSome)).head?
        then Option.none else m.lookup k) := by
  have hfound : ∀ k, k ∈ group.filter (fun a => (m.lookup a).isSome) ↔
      (k ∈ group ∧ (m.lookup k).isSome = true) := by
    intro k; simp [List.mem_filter]
  have hnf : (group.filter (fun a => (m.lookup a).isSome)).Nodup :=
    List.Nodup.filter _ hnd
  constructor
  · intro hle
    simp only [processGroup]
    rw [if_pos hle]
  · intro k
    by_cases hle : (group.filter (fun a => (m.lookup a).isSome)).length ≤ 1
    · have hpg : processGroup m group = m := by
        simp only [processGroup]
        rw [if_pos hle]
      rw [hpg]
      by_cases hc : k ∈ group ∧ (m.lookup k).isSome = true ∧
          Option.some k ≠ (group.filter (fun a => (m.lookup a).isSome)).head?
      · exfalso
        rcases hc with ⟨hg, hp, hne⟩
        have hkf := (hfound k).mpr ⟨hg, hp⟩
        cases hf : group.filter (fun a => (m.lookup a).isSome) with
        | nil => rw [hf] at hkf; exact absurd hkf (List.not_mem_nil k)
        | cons x xs =>
          rw [hf] at hkf hle hne
          have hxs : xs = [] := by
            have hlen : xs.length = 0 := by
              have := hle
              simp only [List.length_cons] at this
              omega
            exact List.eq_nil_of_length_eq_zero hlen
          subst hxs
          have hkx : k = x := by simpa using hkf
          exact hne (by simp [hkx])
      · rw [if_neg hc]
    · have hpg : processGroup m group =
          m.filter (fun p =>
            !(((group.filter (fun a => (m.lookup a).isSome)).drop 1).contains p.1)) := by
        simp only [processGroup]
        rw [if_neg hle]
      have hlk := lookup_filter_key
        (fun s => !(((group.filter (fun a => (m.lookup a).isSome)).drop 1).contains s)) m k
      simp only [] at hlk
      rw [hpg, hlk]
      cases hf : group.filter (fun a => (m.lookup a).isSome) with
      | nil =>
        rw [hf] at hle
        simp at hle
      | cons x xs =>
        have hnfx : x ∉ xs := by
          rw [hf] at hnf
          exact (List.nodup_cons.mp hnf).1
        have hmem : ∀ k : String, k ∈ xs ↔
            (k ∈ group ∧ (m.lookup k).isSome = true ∧ k ≠ x) := by
          intro j
          constructor
          · intro hjxs
            have hjf : j ∈ x :: xs := List.mem_cons_of_mem x hjxs
            rw [← hf] at hjf
            rcases (hfound j).mp hjf with ⟨hg, hp⟩
            refine ⟨hg, hp, ?_⟩
            intro hjx
            subst hjx
            exact hnfx hjxs
          · rintro ⟨hg, hp, hjx⟩
            have hjf := (hfound j).mpr ⟨hg, hp⟩
            rw [hf] at hjf
            rcases List.mem_cons.mp hjf with h | h
            · exact absurd h hjx
            · exact h
        by_cases hkxs : k ∈ xs
        · rcases (hmem k).mp hkxs with ⟨hg, hp, hkx⟩
          have hb : ((x :: xs).drop 1).contains k = true := by
            simp only [List.drop_succ_cons, List.drop_zero]
            simp [List.contains, hkxs]
          have hcond : k ∈ group ∧ (m.lookup k).isSome = true ∧
              Option.some k ≠ (x :: xs).head? := ⟨hg, hp, by simpa using hkx⟩
          rw [if_pos hcond, hb]
          simp
        · have hb : ((x :: xs).drop 1).contains k = false := by
            simp only [List.drop_succ_cons, List.drop_zero]
            simp [List.contains, hkxs]
          have hcond : ¬(k ∈ group ∧ (m.lookup k).isSome = true ∧
              Option.some k ≠ (x :: xs).head?) := by
            rintro ⟨hg, hp, hne⟩
            exact hkxs ((hmem k).mpr ⟨hg, hp, by simpa using hne⟩)
          rw [if_neg hcond, hb]
          simp

theorem mutual_exclusion_group_resolution_witness :
    (processGroup [("t", Value.str "10"), ("to", Value.str "20")]
      ["t", "to"]).lookup "to" = Option.none := by
  have h := (mutual_exclusion_group_resolution ["t", "to"]
    [("t", Value.str "10"), ("to", Value.str "20")] (by decide)).2 "to"
  rw [h]
  decide

/-- Claim C3: for the option table with duration set to the string 10 and
end_position set to the string 20, the rendered result holds exactly the
duration entry, looking up the to flag yields nothing, and reading the
resulting map through the per-option token rule of the renderer gives
exactly the two tokens -t and 10. -/
theorem duration_overrides_end_position :
    durationStream.ffmpeg_arguments = [("t", Value.str "10")] ∧
    durationStream.ffmpeg_arguments.lookup "to" = Option.none ∧
    durationStream.ffmpeg_arguments.flatMap (optionTokens []) = ["-t", "10"] := by
  refine ⟨?_, ?_, ?_⟩ <;> rfl

/-- Claim C5: accessing ffmpeg_arguments twice on the same unmodified
object returns identical results, for GlobalOptions and OutputStream:
the first access fills the cached_property slot and the second access
returns exactly the value of the first. -/
theorem rendering_idempotent :
    (∀ s : GlobalOptionsObj,
      ((s.getArguments.2).getArguments).1 = s.getArguments.1) ∧
    (∀ o : OutputStreamObj,
      ((o.getArguments.2).getArguments).1 = o.getArguments.1) := by
  constructor
  · intro s
    rcases s with ⟨t, c⟩
    cases c <;> rfl
  · intro o
    rcases o with ⟨t, c⟩
    cases c <;> rfl

theorem flatMap_optionTokens_nil (l : List (String × Value))
    (h : ∀ p ∈ l, p.2 = Value.none) :
    l.flatMap (optionTokens doublyNamedFlags) = [] := by
  induction l with
  | nil => rfl
  | cons p t ih =>
    simp only [List.flatMap_cons]
    have hp : optionTokens doublyNamedFlags p = [] := by
      rcases p with ⟨a, v⟩
      have := h (a, v) (List.mem_cons_self _ _)
      simp only at this
      rw [this]
      rfl
    rw [hp]
    simpa using ih (fun q hq => h q (List.mem_cons_of_mem p hq))

theorem processGroup_nil_map (g : List String) : processGroup [] g = [] := by
  simp [processGroup, List.lookup]

theorem processMutuallyExclusive_nil_map (groups : List (List String)) :
    processMutuallyExclusive groups [] = [] := by
  induction groups with
  | nil => rfl
  | cons g t ih =>
    simp only [processMutuallyExclusive, List.foldl_cons, processGroup_nil_map]
    exact ih

/-- Claim C7: a table in which every value is absent renders to an empty
result: an empty token list for GlobalOptions and an empty option map
for OutputStream. -/
theorem all_absent_renders_empty :
    (∀ g : GlobalOptions, (∀ p ∈ g.options, p.2 = Value.none) →
      g.ffmpeg_arguments = []) ∧
    (∀ o : OutputStream, (∀ p ∈ o.options, p.2 = Value.none) →
      o.ffmpeg_arguments = []) := by
  constructor
  · intro g h
    rw [ffmpeg_arguments_eq_flatMap]
    exact flatMap_optionTokens_nil g.options h
  · intro o h
    have hfil : o.options.filter (fun p => !(p.2 == Value.none)) = [] := by
      rw [List.filter_eq_nil_iff]
      intro p hp
      rw [h p hp]
      simp
    rw [OutputStream.ffmpeg_arguments, hfil]
    exact processMutuallyExclusive_nil_map outputStreamMutuallyExclusive

theorem all_absent_renders_empty_witness :
    allNoneGlobal.ffmpeg_arguments = [] ∧ allNoneOutput.ffmpeg_arguments = [] :=
  ⟨all_absent_renders_empty.1 allNoneGlobal (by decide),
   all_absent_renders_empty.2 allNoneOutput (by decide)⟩

/-- Claim C8: generate_output_stream returns None exactly on the names
the registry does not contain; a registered name always produces a
result, and the total Lean translation returns on every input, so a miss
is a logged null result and never an exception. -/
theorem generate_output_stream_miss_is_none {K : Type}
    (registry : List (String × (K → OutputStream))) (name : String) (kwargs : K) :
    generate_output_stream registry name kwargs = Option.none ↔
      registry.lookup name = Option.none := by
  unfold generate_output_stream
  cases registry.lookup name with
  | none => simp
  | some stream => simp

/-- Claim C9: computing ffmpeg_arguments never modifies the stored
_options mapping of an OutputStream: the object after the access carries
exactly the option table it was constructed with, and concretely for the
duration example the access deletes the to entry from the returned
filtered copy while the stored table still maps to to the string 20. -/
theorem rendering_preserves_stored_options :
    (∀ o : OutputStreamObj, (o.getArguments.2).table.options = o.table.options) ∧
    ((OutputStreamObj.mk durationStream Option.none).getArguments.1.lookup "to"
      = Option.none ∧
     (OutputStreamObj.mk durationStream
        Option.none).getArguments.2.table.options.lookup "to"
      = Option.some (Value.str "20")) := by
  refine ⟨?_, ?_, ?_⟩
  · intro o
    rcases o with ⟨t, c⟩
    cases c <;> rfl
  · rfl
  · rfl

/-- Claim C10: the sudo argument has no effect on the rendered output:
two GlobalOptions built from identical arguments for the fifteen stored
options render the same argument list whatever their sudo values are,
because sudo is accepted by the constructor but never stored in the
option table. -/
theorem sudo_has_no_effect (g1 g2 : GlobalOptions)
    (h : g1.filter_thread_count = g2.filter_thread_count ∧
         g1.show_stats = g2.show_stats ∧
         g1.send_progress = g2.send_progress ∧
         g1.show_timestamps = g2.show_timestamps ∧
         g1.show_qp_histogram = g2.show_qp_histogram ∧
         g1.show_benchmark = g2.show_benchmark ∧
         g1.show_benchmark_verbose = g2.show_benchmark_verbose ∧
         g1.exit_time_limit = g2.exit_time_limit ∧
         g1.dump_input_stderr = g2.dump_input_stderr ∧
         g1.dump_payload_stderr = g2.dump_payload_stderr ∧
         g1.filter_complex_thread_count = g2.filter_complex_thread_count ∧
         g1.dump_sdp_file = g2.dump_sdp_file ∧
         g1.abort_on_flags = g2.abort_on_flags ∧
         g1.exit_on_error = g2.exit_on_error ∧
         g1.overwrite_output = g2.overwrite_output) :
    g1.ffmpeg_arguments = g2.ffmpeg_arguments := by
  obtain ⟨h1, h2, h3, h4, h5, h6, h7, h8, h9, h10, h11, h12, h13, h14, h15⟩ := h
  have hopt : g1.options = g2.options := by
    simp [GlobalOptions.options, h1, h2, h3, h4, h5, h6, h7, h8, h9, h10,
      h11, h12, h13, h14, h15]
  rw [GlobalOptions.ffmpeg_arguments, GlobalOptions.ffmpeg_arguments, hopt]

theorem sudo_has_no_effect_witness :
    sampleGlobal.ffmpeg_arguments = sampleGlobalSudo.ffmpeg_arguments :=
  sudo_has_no_effect sampleGlobal sampleGlobalSudo (by decide)

/-- Claim C4 is refuted by the code: the schema returned by
global_options_parameters uses the keys display_stats and
filter_complex_thread, but GlobalOptions.__init__ names these parameters
show_stats and filter_complex_thread_count, so a configuration that
supplies values under those schema names does not construct a
GlobalOptions: Python raises a TypeError for an unexpected keyword
argument. -/
theorem parameters_schema_mismatch :
    "display_stats" ∈ global_options_parameters.map Prod.fst ∧
    ¬ "display_stats" ∈ globalOptionsConstructorParameters ∧
    "filter_complex_thread" ∈ global_options_parameters.map Prod.fst ∧
    ¬ "filter_complex_thread" ∈ globalOptionsConstructorParameters := by
  decide

end SimpleCapture
